import Mathlib

set_option maxRecDepth 16384

/-!
Shallow embedding of the hover-translation engine of the samo-assistant
browser extension (src/content/content.ts and src/services/ai.ts),
with theorems settling the frozen claims C1..C10.

DOM modelling conventions:
* An element is an `Elem` record carrying the fields the code reads:
  `tagName`, its class list, its trimmed `innerText`, and the tag names of
  its direct children.  Elements are identified by a numeric id `eid`
  standing in for JavaScript reference identity.
* The ancestor walk (`while (el && el !== document.body) ... el =
  el.parentElement`) is embedded as structural recursion over the list of
  strict ancestors of the starting element that lie strictly below
  `document.body`, nearest first; reaching the end of the list covers both
  loop exits (`el === document.body` and `el === null`).
* Overlays inserted with `insertAdjacentElement('afterend', …)` are kept in
  an association list keyed by the id of the element they directly follow.
  Plain page elements never carry the extension's marker class
  `ai-sidebar-translation`, so `nextElementSibling?.classList?.contains(…)`
  reduces to presence of an overlay at that key.
-/

namespace Samo

/-- A DOM element as seen by the content script: tag name, class list,
trimmed rendered text (`innerText.trim()`), and the tag names of its direct
children.  `eid` models JavaScript reference identity. -/
structure Elem where
  eid : Nat
  tagName : String
  classes : List String
  innerTextTrimmed : String
  childTags : List String
  deriving Repr, DecidableEq

/-- content.ts `blockParagraphs`: unambiguous block-level paragraph tags,
returned immediately by the locator. -/
def blockParagraphs : List String :=
  ["P", "H1", "H2", "H3", "H4", "H5", "H6",
   "LI", "BLOCKQUOTE", "ARTICLE", "SECTION"]

/-- content.ts `containerElements`: ambiguous containers needing further
text-length / child-structure checks. -/
def containerElements : List String :=
  ["DIV", "TD", "TH", "DD", "FIGCAPTION"]

/-- content.ts `inlineElements` (inside `findBestParagraph`): skipped
upward without evaluation. -/
def inlineElements : List String :=
  ["SPAN", "A", "STRONG", "EM", "B", "I", "CODE",
   "MARK", "SMALL", "SUB", "SUP", "LABEL"]

/-- The marker class of translation overlay containers. -/
def translationMarker : String := "ai-sidebar-translation"

/-- content.ts `hasSignificantBlockChildren`: more than one direct child
whose tag is in the (broad) block tag list. -/
def hasSignificantBlockChildren (e : Elem) : Bool :=
  let blockTags := ["P", "DIV", "H1", "H2", "H3", "H4", "H5", "H6",
    "UL", "OL", "LI", "BLOCKQUOTE", "ARTICLE", "SECTION",
    "TABLE", "FORM", "HEADER", "FOOTER", "NAV", "ASIDE"]
  (e.childTags.filter (fun t => blockTags.contains t)).length > 1

/-- content.ts `isInsideTranslation`, as a walk over the element followed by
its strict ancestors below `document.body`. -/
def isInsideTranslation : List Elem → Bool
  | [] => false
  | e :: rest =>
    if e.classes.contains translationMarker then true
    else isInsideTranslation rest

/-- The ancestor-walk loop body of content.ts `findBestParagraph`.  Returns
the chosen element together with the remaining chain of its strict ancestors
(needed later by `findBlockParent`). -/
def findParaWalk : List Elem → Option (Elem × List Elem)
  | [] => none
  | e :: rest =>
    if e.classes.contains translationMarker then none
    else if blockParagraphs.contains e.tagName then some (e, rest)
    else if inlineElements.contains e.tagName then findParaWalk rest
    else if containerElements.contains e.tagName then
      let text := e.innerTextTrimmed
      if text.length > 0 ∧ text.length < 5000 then
        if text.length < 500 then some (e, rest)
        else if ¬ hasSignificantBlockChildren e then some (e, rest)
        else findParaWalk rest
      else findParaWalk rest
    else findParaWalk rest

/-- content.ts `findBestParagraph`: the guarding `isInsideTranslation` check
on the start element, then the ancestor walk.  `anc` is the chain of strict
ancestors of `start` below `document.body`, nearest first. -/
def findBestParagraph (start : Elem) (anc : List Elem) :
    Option (Elem × List Elem) :=
  if isInsideTranslation (start :: anc) then none
  else findParaWalk (start :: anc)

/-- content.ts `findBlockParent`'s inline tag set (a superset of the
locator's `inlineElements`). -/
def fbpInline : List String :=
  ["A", "SPAN", "STRONG", "EM", "B", "I", "CODE",
   "MARK", "SMALL", "SUB", "SUP", "LABEL", "ABBR",
   "CITE", "DFN", "KBD", "SAMP", "VAR", "TIME"]

/-- The ancestor-walk loop of content.ts `findBlockParent`. -/
def fbpWalk : List Elem → Option Elem
  | [] => none
  | e :: rest =>
    if fbpInline.contains e.tagName then fbpWalk rest
    else some e

/-- content.ts `findBlockParent`: first non-inline element at or above the
start (strictly below `document.body`); the start itself as fallback. -/
def findBlockParent (start : Elem) (anc : List Elem) : Elem :=
  (fbpWalk (start :: anc)).getD start

/-- The provider configuration read by the content script
(`StorageSettings.providerConfigs[currentProvider]`).  Missing string
fields are the empty string, mirroring JavaScript falsiness. -/
structure ProviderConfig where
  provider : String
  apiKey : String
  model : String
  deriving Repr, DecidableEq

/-- JavaScript `a || b` on strings: the empty string is falsy. -/
def jsOr (a b : String) : String := if a = "" then b else a

/-- A translation overlay node created by `showTranslation`: a unique node
id (reference identity), the loading flag (class
`ai-sidebar-translation-loading`) and the text content of its
`.ai-sidebar-translation-content` child. -/
structure Overlay where
  oid : Nat
  loading : Bool
  content : String
  deriving Repr, DecidableEq

/-- The mutable module-level state of the hover-translation feature in
content.ts, plus the overlay placement map (keyed by the id of the element
each overlay directly follows) and a fresh-node counter. -/
structure TransState where
  translateModeActive : Bool
  configLoaded : Bool
  providerConfig : Option ProviderConfig
  translatingElement : Option Nat
  translatedTexts : List (String × String)
  overlays : List (Nat × Overlay)
  nextOid : Nat
  deriving Repr, DecidableEq

/-- `TranslateTarget.type` in content.ts. -/
inductive TargetType
  | selection
  | element
  deriving Repr, DecidableEq

/-- content.ts `TranslateTarget`: the text to translate and the associated
element (with its strict-ancestor chain below `document.body`, needed for
`findBlockParent`). -/
structure Target where
  ttype : TargetType
  text : String
  element : Elem
  ancestors : List Elem
  deriving Repr, DecidableEq

/-- Trace of the externally visible effects of one orchestration run:
network requests issued, overlay insertions (by insertion-point element id)
and cache writes. -/
structure Trace where
  networkCalls : Nat
  overlayInserts : List Nat
  cacheWrites : List (String × String)
  deriving Repr, DecidableEq

def Trace.empty : Trace := ⟨0, [], []⟩

def Trace.app (a b : Trace) : Trace :=
  ⟨a.networkCalls + b.networkCalls,
   a.overlayInserts ++ b.overlayInserts,
   a.cacheWrites ++ b.cacheWrites⟩

/-- content.ts `showTranslation`: compute the block insertion point via
`findBlockParent`, remove an existing translation overlay directly after
it, create the new container (content `翻译中...` with the loading class
when `isLoading`, empty otherwise) and insert it there.  Returns the new
state, the effect, the new node's id and the insertion-point element id. -/
def showTranslation (st : TransState) (target : Target) (isLoading : Bool) :
    TransState × Trace × Nat × Nat :=
  let insertTarget := findBlockParent target.element target.ancestors
  let pos := insertTarget.eid
  let kept := st.overlays.filter (fun p => p.1 ≠ pos)
  let o : Overlay := ⟨st.nextOid, isLoading, if isLoading then "翻译中..." else ""⟩
  ({ st with overlays := (pos, o) :: kept, nextOid := st.nextOid + 1 },
   ⟨0, [pos], []⟩, o.oid, pos)

/-- content.ts `updateTranslationContent` applied to the overlay node with
id `oid`: replace its text content and clear the loading flag.  A node no
longer in the placement map is detached, so the update has no page effect. -/
def updateTranslationContent (st : TransState) (oid : Nat) (content : String) :
    TransState :=
  { st with overlays :=
      st.overlays.map (fun p =>
        if p.2.oid = oid then (p.1, ⟨oid, false, content⟩) else p) }

/-- The error body of a failed HTTP response, as content.ts parses it:
either not valid JSON (raw text only), or parsed JSON with optional
`error.message` and `message` fields (empty string = absent) plus the raw
body text. -/
inductive ErrorBody
  | unparseable (raw : String)
  | parsed (errMsg : String) (topMsg : String) (raw : String)
  deriving Repr, DecidableEq

/-- The network environment for one translation request: an HTTP failure
(status, statusText, error body) or a successful SSE stream whose parsed
events carry the given `choices[0].delta.content` fragments (empty string =
event without content). -/
inductive HttpResult
  | failure (status : Nat) (statusText : String) (body : ErrorBody)
  | success (chunks : List String)
  deriving Repr, DecidableEq

/-- content.ts `translateWithStream` error-detail extraction: on parseable
JSON, `errorJson.error?.message || errorJson.message || errorBody`;
otherwise `response.statusText`. -/
def errorDetail : ErrorBody → String → String
  | .unparseable _, statusText => statusText
  | .parsed errMsg topMsg raw, _ => jsOr errMsg (jsOr topMsg raw)

/-- The message of the `Error` thrown by `translateWithStream` on a
non-ok response. -/
def twsErrMsg (model : String) (status : Nat) (detail : String) : String :=
  "模型: " ++ model ++ "\n状态: " ++ toString status ++ "\n错误: " ++ detail

/-- The cumulative arguments passed to `translateWithStream`'s `onChunk`
callback: for each nonempty fragment, the full content accumulated so far
(events without content are skipped). -/
def accumulateChunks (acc : String) : List String → List String
  | [] => []
  | c :: cs =>
    if c = "" then accumulateChunks acc cs
    else (acc ++ c) :: accumulateChunks (acc ++ c) cs

/-- The full content returned by `translateWithStream` on success:
concatenation of all fragments. -/
def fullContentOf (chunks : List String) : String :=
  chunks.foldl (· ++ ·) ""

/-- JavaScript truthiness of `providerConfig?.apiKey`. -/
def hasApiKey : Option ProviderConfig → Bool
  | none => false
  | some cfg => cfg.apiKey ≠ ""

/-- The `catch` branch of `checkAndTranslate`: look up
`target.element?.nextElementSibling`; when it is a translation container,
write `翻译失败: <message>` into it via `updateTranslationContent`. -/
def catchUpdate (st : TransState) (elemId : Nat) (msg : String) : TransState :=
  match st.overlays.lookup elemId with
  | some o => updateTranslationContent st o.oid ("翻译失败: " ++ msg)
  | none => st

/-- Outcome of the synchronous prefix of one `checkAndTranslate`
invocation: either the invocation already ran to completion (any early
return, the cache fast path, or the synchronous no-API-key throw caught in
the same tick), or it suspended at `await fetch` with the request issued
(`started` carries the captured model name, the target element id, the
loading overlay's node id and the source text). -/
inductive SyncResult
  | finished
  | started (model : String) (elemId : Nat) (oid : Nat) (text : String)
  deriving Repr, DecidableEq

/-- The synchronous prefix of content.ts `checkAndTranslate`, up to its
first true suspension point on the network.  `loadCfg` is the provider
configuration that `loadTranslateConfig` would install when the
configuration is not yet loaded.  Faithful step order: translate-mode
guard; config load; target guard; exclusivity guard
(`translatingElement === target.element`); cache fast path; existing
next-sibling overlay guard; mark in-flight; show loading overlay; start
`translateWithStream` (which throws before `fetch` when no API key is
configured — that error is caught, written into the overlay, and the
in-flight marker cleared, all synchronously). -/
def catSyncPhase (loadCfg : Option ProviderConfig) (st : TransState)
    (target? : Option Target) : TransState × Trace × SyncResult :=
  if ¬ st.translateModeActive then (st, Trace.empty, .finished)
  else
    let st := if st.configLoaded then st
      else { st with configLoaded := true, providerConfig := loadCfg }
    match target? with
    | none => (st, Trace.empty, .finished)
    | some target =>
      if st.translatingElement = some target.element.eid then
        (st, Trace.empty, .finished)
      else
        match st.translatedTexts.lookup target.text with
        | some cached =>
          let (st1, tr, oid, _) := showTranslation st target false
          (updateTranslationContent st1 oid cached, tr, .finished)
        | none =>
          if (st.overlays.lookup target.element.eid).isSome then
            (st, Trace.empty, .finished)
          else
            let st := { st with translatingElement := some target.element.eid }
            let (st1, tr, oid, _) := showTranslation st target true
            if ¬ hasApiKey st1.providerConfig then
              let st2 := catchUpdate st1 target.element.eid "未配置 API 密钥"
              ({ st2 with translatingElement := none }, tr, .finished)
            else
              let model := jsOr ((st1.providerConfig.map (·.model)).getD "") "gpt-4o-mini"
              (st1, Trace.app tr ⟨1, [], []⟩,
               .started model target.element.eid oid target.text)

/-- The continuation of `checkAndTranslate` after the network responds.
On failure: build the thrown message, write it into the translation node
directly after `target.element` (if any), clear the in-flight marker.  On
success: update the loading overlay with the cumulative content after each
received fragment, store the final text in the cache, clear the marker. -/
def catResume (st : TransState) (model : String) (elemId : Nat) (oid : Nat)
    (text : String) (net : HttpResult) : TransState × Trace :=
  match net with
  | .failure status statusText body =>
    let msg := twsErrMsg model status (errorDetail body statusText)
    let st1 := catchUpdate st elemId msg
    ({ st1 with translatingElement := none }, Trace.empty)
  | .success chunks =>
    let st1 := (accumulateChunks "" chunks).foldl
      (fun s c => updateTranslationContent s oid c) st
    let full := fullContentOf chunks
    let st2 := { st1 with
      translatedTexts := (text, full) :: st1.translatedTexts,
      translatingElement := none }
    (st2, ⟨0, [], [(text, full)]⟩)

/-- One complete `checkAndTranslate` invocation with no interleaving: the
synchronous prefix followed, when a request was issued, by the resumption
under network result `net`. -/
def checkAndTranslate (loadCfg : Option ProviderConfig) (st : TransState)
    (target? : Option Target) (net : HttpResult) : TransState × Trace :=
  match catSyncPhase loadCfg st target? with
  | (st1, tr1, .finished) => (st1, tr1)
  | (st1, tr1, .started model elemId oid text) =>
    let (st2, tr2) := catResume st1 model elemId oid text net
    (st2, Trace.app tr1 tr2)

/-- The `commonAncestorContainer.parentElement` of a selection range,
with its strict-ancestor chain below `document.body`. -/
structure RangeInfo where
  parentElem : Option (Elem × List Elem)

/-- The current selection as read by `getTranslateTarget`:
`selection.toString().trim()` (stored trimmed, the only form the code
uses, exactly as elements store their trimmed `innerText`) and the result
of `selection.getRangeAt(0)`, which may throw (modelled as `.error`). -/
structure Sel where
  selTextTrimmed : String
  range : Except Unit RangeInfo

/-- The hovered-element branch of content.ts `getTranslateTarget`: run the
Paragraph Locator on `currentHoverElement` and accept a result whose
trimmed text length is in (0, 5000). -/
def hoverBranch (hover : Option (Elem × List Elem)) : Option Target :=
  match hover with
  | none => none
  | some (e, anc) =>
    match findBestParagraph e anc with
    | none => none
    | some (p, panc) =>
      let text := p.innerTextTrimmed
      if text.length > 0 ∧ text.length < 5000 then
        some ⟨.element, text, p, panc⟩
      else none

/-- content.ts `getTranslateTarget`: prefer a nonempty text selection
(rejecting selections inside a translation overlay, and swallowing a range
access that throws); otherwise fall back to the hovered paragraph. -/
def getTranslateTarget (sel : Option Sel) (hover : Option (Elem × List Elem)) :
    Option Target :=
  match sel with
  | some s =>
    if s.selTextTrimmed.length > 0 then
      match s.range with
      | .ok r =>
        match r.parentElem with
        | none => none
        | some (e, anc) =>
          if isInsideTranslation (e :: anc) then none
          else some ⟨.selection, s.selTextTrimmed, e, anc⟩
      | .error _ => hoverBranch hover
    else hoverBranch hover
  | none => hoverBranch hover

/-- A keyboard event as read by the shortcut listeners: `e.key`, the four
modifier flags, and its dispatch time in milliseconds. -/
structure KeyEvent where
  key : String
  ctrlKey : Bool
  altKey : Bool
  shiftKey : Bool
  metaKey : Bool
  time : Nat
  deriving Repr, DecidableEq

/-- content.ts `isOnlyShortcutKey`: exactly one modifier flag set, the key
itself a modifier name, and the flag matching the configured shortcut. -/
def isOnlyShortcutKey (translateShortcut : String) (e : KeyEvent) : Bool :=
  let modifierCount := (if e.ctrlKey then 1 else 0) + (if e.altKey then 1 else 0)
    + (if e.shiftKey then 1 else 0) + (if e.metaKey then 1 else 0)
  let isModifierKey := ["Control", "Alt", "Shift", "Meta", "OS"].contains e.key
  if modifierCount ≠ 1 ∨ ¬ isModifierKey then false
  else
    match translateShortcut with
    | "Control" => e.ctrlKey
    | "Alt" => e.altKey
    | "Shift" => e.shiftKey
    | "Meta" => e.metaKey
    | _ => e.ctrlKey

/-- The keyup listener's shortcut test (`wasShortcutKey` in content.ts). -/
def wasShortcutKey (translateShortcut : String) (e : KeyEvent) : Bool :=
  (translateShortcut = "Control" ∧ e.key = "Control") ∨
  (translateShortcut = "Alt" ∧ e.key = "Alt") ∨
  (translateShortcut = "Shift" ∧ e.key = "Shift") ∨
  (translateShortcut = "Meta" ∧ (e.key = "Meta" ∨ e.key = "OS"))

/-- The activation state machine's variables: `translateModeActive` and
`shortcutPressTimer`, the latter as the absolute time the pending
`setTimeout` is due (`keydown time + SHORTCUT_DELAY`). -/
structure KeyState where
  active : Bool
  timerDue : Option Nat
  deriving Repr, DecidableEq

/-- content.ts `SHORTCUT_DELAY` (ms). -/
def SHORTCUT_DELAY : Nat := 150

/-- content.ts `activateTranslateMode` (mode flag only; the DOM class and
the translation trigger are outside this machine). -/
def activateTranslateMode (s : KeyState) : KeyState :=
  if s.active then s else { s with active := true }

/-- content.ts `deactivateTranslateMode`: cancel a pending timer and leave
translate mode. -/
def deactivateTranslateMode (_s : KeyState) : KeyState :=
  ⟨false, none⟩

/-- The keydown listener: a non-shortcut chord cancels a pending timer; a
lone configured modifier (when not already active or pending) schedules
activation `SHORTCUT_DELAY` ms ahead. -/
def keydownStep (translateShortcut : String) (s : KeyState) (e : KeyEvent) :
    KeyState :=
  if ¬ isOnlyShortcutKey translateShortcut e then { s with timerDue := none }
  else if s.active ∨ s.timerDue.isSome then s
  else { s with timerDue := some (e.time + SHORTCUT_DELAY) }

/-- The keyup listener: releasing the configured modifier deactivates. -/
def keyupStep (translateShortcut : String) (s : KeyState) (e : KeyEvent) :
    KeyState :=
  if wasShortcutKey translateShortcut e then deactivateTranslateMode s
  else s

/-- Fire the pending `setTimeout` callback if its due time has been
reached by time `t` (the callback nulls the handle, then activates). -/
def fireDue (s : KeyState) (t : Nat) : KeyState :=
  match s.timerDue with
  | some d => if d ≤ t then activateTranslateMode { s with timerDue := none } else s
  | none => s

/-- A timed key event. -/
inductive KEvent
  | down (e : KeyEvent)
  | up (e : KeyEvent)
  deriving Repr, DecidableEq

def KEvent.time : KEvent → Nat
  | .down e => e.time
  | .up e => e.time

/-- Process one timed event: any timer due by its dispatch time fires
first, then the matching listener runs. -/
def stepTimed (translateShortcut : String) (s : KeyState) (ev : KEvent) :
    KeyState :=
  let s := fireDue s ev.time
  match ev with
  | .down e => keydownStep translateShortcut s e
  | .up e => keyupStep translateShortcut s e

/-- Run the machine over a time-ordered event list. -/
def runEvents (translateShortcut : String) (s : KeyState) (evs : List KEvent) :
    KeyState :=
  evs.foldl (stepTimed translateShortcut) s

/-- One parsed item of the OpenAI-compatible SSE stream in ai.ts
`callOpenAICompatible`: the `data: [DONE]` sentinel, a line whose JSON
parse fails (silently skipped), or a parsed event with its
`choices[0].delta` fields (empty string = absent). -/
inductive SSEItem
  | done
  | unparseable
  | event (reasoningContent : String) (content : String)
  deriving Repr, DecidableEq

/-- The streaming loop of ai.ts `callOpenAICompatible` with
`enableReasoning = false` (the value used everywhere relevant to the
claims): returns the `onStream` call arguments in order, and the full
accumulated content.  Note each nonempty `delta.content` fragment is passed
to `onStream` as is — not the accumulated text. -/
def openAIStreamLoop : List SSEItem → List String × String
  | [] => ([], "")
  | item :: rest =>
    match item with
    | .done => openAIStreamLoop rest
    | .unparseable => openAIStreamLoop rest
    | .event _ content =>
      if content = "" then openAIStreamLoop rest
      else
        let (calls, full) := openAIStreamLoop rest
        (content :: calls, content ++ full)

/-- One parsed item of the Anthropic event stream in ai.ts `callAnthropic`:
a line whose JSON parse fails, an event of another type, or a
`content_block_delta` with its `delta.text`. -/
inductive AnthropicItem
  | unparseable
  | otherEvent
  | contentBlockDelta (text : String)
  deriving Repr, DecidableEq

/-- The streaming loop of ai.ts `callAnthropic`: `onStream` call arguments
and the accumulated full content.  Each nonempty `delta.text` fragment is
passed to `onStream` as is. -/
def anthropicStreamLoop : List AnthropicItem → List String × String
  | [] => ([], "")
  | item :: rest =>
    match item with
    | .unparseable => anthropicStreamLoop rest
    | .otherEvent => anthropicStreamLoop rest
    | .contentBlockDelta text =>
      if text = "" then anthropicStreamLoop rest
      else
        let (calls, full) := anthropicStreamLoop rest
        (text :: calls, text ++ full)

/-- The non-streaming branch of ai.ts `callOpenAICompatible`: the whole
text is returned in one response (`data.choices[0].message.content || ''`),
and `onStream` is never invoked. -/
def openAINonStreaming (messageContent : String) : List String × String :=
  ([], jsOr messageContent "")

/-- The `onChunk` call list of content.ts `translateWithStream` over the
same parsed fragments: cumulative content after each nonempty fragment.
The SSE decoding layer (`readSSEStream` in utils/stream) parses each
`data: <json>` line and hands the parsed event to the callback, skipping
the `data: [DONE]` sentinel and lines whose JSON parse fails — so the
parsed-event level is the faithful interface for the callback loops. -/
def twsChunkCalls (chunks : List String) : List String :=
  accumulateChunks "" chunks

/-- Spec-side definition ("cumulative text received so far"): the sequence
whose n-th element is the concatenation of the first n fragments.  Used to
compare the code's callback arguments with the spec's words. -/
def cumulativeOf : List String → List String
  | [] => []
  | c :: cs => c :: (cumulativeOf cs).map (c ++ ·)

/-- The nonempty `delta.content` fragments of an OpenAI-compatible parsed
stream, in order. -/
def openAIFragments (items : List SSEItem) : List String :=
  items.filterMap fun i =>
    match i with
    | .event _ c => if c = "" then none else some c
    | _ => none

/-- The nonempty `content_block_delta` texts of an Anthropic parsed
stream, in order. -/
def anthropicFragments (items : List AnthropicItem) : List String :=
  items.filterMap fun i =>
    match i with
    | .contentBlockDelta t => if t = "" then none else some t
    | _ => none

/-- Interleaved execution of two rapid `checkAndTranslate` invocations for
the same target: the first runs its synchronous prefix; JavaScript's
single-threaded event loop then lets the second run before the first's
network response arrives; finally any suspended invocation resumes in
order.  Returns the final state and the combined effect trace. -/
def rapidDouble (loadCfg : Option ProviderConfig) (st : TransState)
    (target : Target) (net : HttpResult) : TransState × Trace :=
  match catSyncPhase loadCfg st (some target) with
  | (st1, tr1, .finished) =>
    let (st2, tr2) := checkAndTranslate loadCfg st1 (some target) net
    (st2, Trace.app tr1 tr2)
  | (st1, tr1, .started model elemId oid text) =>
    match catSyncPhase loadCfg st1 (some target) with
    | (st2, tr2, .finished) =>
      let (st3, tr3) := catResume st2 model elemId oid text net
      (st3, Trace.app tr1 (Trace.app tr2 tr3))
    | (st2, tr2, .started m2 e2 o2 t2) =>
      let (st3, tr3) := catResume st2 model elemId oid text net
      let (st4, tr4) := catResume st3 m2 e2 o2 t2 net
      (st4, Trace.app tr1 (Trace.app tr2 (Trace.app tr3 tr4)))

/-- A provider configuration with an API key, for concrete runs. -/
def cfgOK : ProviderConfig := ⟨"openai", "sk-test", "gpt-4o-mini"⟩

/-- A top-level DIV directly below `document.body`. -/
def divRoot : Elem := ⟨0, "DIV", [], "Hello world", ["P"]⟩

/-- A paragraph element containing "Hello world". -/
def pElem : Elem := ⟨1, "P", [], "Hello world", []⟩

/-- The element-type target the resolver builds for `pElem`. -/
def tgtP : Target := ⟨.element, "Hello world", pElem, [divRoot]⟩

/-- Ready state: translate mode active, configuration loaded with an API
key, nothing in flight, empty cache, no overlays. -/
def stReady : TransState := ⟨true, true, some cfgOK, none, [], [], 0⟩

/-- Same, but the configured provider has an empty API key. -/
def stNoKey : TransState := ⟨true, true, some ⟨"openai", "", ""⟩, none, [], [], 0⟩

/-- Ready state in which `pElem` is already recorded as in flight. -/
def stInFlight : TransState := ⟨true, true, some cfgOK, some 1, [], [], 0⟩

/-- A paragraph containing an inline SPAN (selection scenario). -/
def pSel : Elem := ⟨2, "P", [], "Hi there", ["SPAN"]⟩

/-- The inline SPAN inside `pSel` holding the selected text. -/
def spanSel : Elem := ⟨3, "SPAN", [], "Hi", []⟩

/-- A selection-type target anchored at the inline `spanSel`. -/
def tgtSel : Target := ⟨.selection, "Hi", spanSel, [pSel, divRoot]⟩

/-- A 600-character text (strictly between the 500 soft cap and the 5000
hard cap). -/
def longText600 : String := String.mk (List.replicate 600 'a')

/-- A DIV with 600 characters of text and two direct DIV children (zero
block-semantic children in the spec's sense). -/
def divBig : Elem := ⟨5, "DIV", [], longText600, ["DIV", "DIV"]⟩

/-- A paragraph sitting inside a translation overlay container. -/
def overlayDiv : Elem := ⟨6, "DIV", [translationMarker], "译文", ["P"]⟩

/-- A block-semantic element whose parent carries the overlay marker. -/
def pInOverlay : Elem := ⟨7, "P", [], "译文", []⟩

/-- Ready state whose cache already maps "Hello world" to its
translation. -/
def stCached : TransState :=
  ⟨true, true, some cfgOK, none, [("Hello world", "你好，世界")], [], 0⟩

end Samo

namespace Samo

theorem string_empty_append (s : String) : "" ++ s = s := by
  apply String.ext
  simp [String.data_append]

theorem string_append_assoc (a b c : String) : a ++ b ++ c = a ++ (b ++ c) := by
  apply String.ext
  simp [String.data_append]

theorem fbpWalk_eq_find (l : List Elem) :
    fbpWalk l = l.find? (fun e => !(fbpInline.contains e.tagName)) := by
  induction l with
  | nil => rfl
  | cons e rest ih =>
    by_cases h : e.tagName ∈ fbpInline
    · simp [fbpWalk, List.find?, h, ih]
    · simp [fbpWalk, List.find?, h, ih]

/-- C10: `findBlockParent` is total: started anywhere, it returns the
nearest element at or above the start (strictly below `document.body`)
whose tag is outside the inline set, and when the whole chain up to the
body is inline it falls back to the original starting element itself, so
overlay insertion always has a non-null anchor. -/
theorem findBlockParent_nearest_or_self (start : Elem) (anc : List Elem) :
    findBlockParent start anc =
      (((start :: anc).find? (fun e => !(fbpInline.contains e.tagName))).getD
        start) := by
  unfold findBlockParent
  rw [fbpWalk_eq_find]

/-- C4 counterexample: a paragraph tag does NOT make the locator return the
element regardless of ancestor structure — with an ancestor carrying the
overlay marker class the locator returns `none` instead of the P element. -/
theorem block_semantic_inside_overlay_cex :
    blockParagraphs.contains pInOverlay.tagName = true ∧
    findBestParagraph pInOverlay [overlayDiv] = none := by
  decide

/-- C4 (amended): for an element with a block-semantic tag that is not
inside a translation container, the locator returns that exact element
regardless of its (non-overlay) ancestor structure. -/
theorem findBestParagraph_block_semantic (e : Elem) (anc : List Elem)
    (hb : blockParagraphs.contains e.tagName = true)
    (ht : isInsideTranslation (e :: anc) = false) :
    findBestParagraph e anc = some (e, anc) := by
  have hc : e.classes.contains translationMarker = false := by
    revert ht
    unfold isInsideTranslation
    cases h : e.classes.contains translationMarker <;> simp
  unfold findBestParagraph
  rw [ht]
  unfold findParaWalk
  rw [hc, hb]
  simp

/-- C4 witness: the locator returns the `Hello world` paragraph itself. -/
theorem findBestParagraph_block_semantic_witness :
    findBestParagraph pElem [divRoot] = some (pElem, [divRoot]) :=
  findBestParagraph_block_semantic pElem [divRoot] (by decide) (by decide)

theorem container_tag_not_block_inline (t : String)
    (h : containerElements.contains t = true) :
    blockParagraphs.contains t = false ∧ inlineElements.contains t = false := by
  simp [containerElements] at h
  rcases h with h | h | h | h | h <;> subst h <;> decide

/-- C5 counterexample: a DIV whose 600-character text lies strictly between
the caps, with zero block-semantic direct children (its two direct children
are DIVs, an ambiguous-container tag), is NOT returned by the locator: the
`hasSignificantBlockChildren` check counts the broader block tag set, so
the walk continues upward and the locator yields `none`. -/
theorem container_between_caps_cex :
    containerElements.contains divBig.tagName = true ∧
    500 < divBig.innerTextTrimmed.length ∧
    divBig.innerTextTrimmed.length < 5000 ∧
    (divBig.childTags.filter (fun t => blockParagraphs.contains t)).length ≤ 1 ∧
    findBestParagraph divBig [] = none := by
  decide

/-- C5 (amended): for an ambiguous-container element not inside a
translation container, with trimmed text length strictly between the soft
cap (500) and the hard cap (5000), the locator returns it if and only if it
has at most one direct child from the broad block tag set of
`hasSignificantBlockChildren` (which also counts DIV, UL, OL, TABLE, FORM,
HEADER, FOOTER, NAV and ASIDE — not only block-semantic tags); with more
than one such child the walk continues upward over the ancestors. -/
theorem findBestParagraph_container_between_caps (e : Elem) (anc : List Elem)
    (hcont : containerElements.contains e.tagName = true)
    (hlen1 : 500 < e.innerTextTrimmed.length)
    (hlen2 : e.innerTextTrimmed.length < 5000)
    (ht : isInsideTranslation (e :: anc) = false) :
    findBestParagraph e anc =
      (if hasSignificantBlockChildren e then findParaWalk anc
       else some (e, anc)) := by
  have hc : e.classes.contains translationMarker = false := by
    revert ht
    unfold isInsideTranslation
    cases h : e.classes.contains translationMarker <;> simp
  obtain ⟨hb, hi⟩ := container_tag_not_block_inline e.tagName hcont
  unfold findBestParagraph
  rw [ht]
  unfold findParaWalk
  rw [hc, hb, hi, hcont]
  have h0 : e.innerTextTrimmed.length > 0 := by omega
  have h500 : ¬ e.innerTextTrimmed.length < 500 := by omega
  cases h : hasSignificantBlockChildren e <;> simp [h0, hlen2, h500, h]
  cases anc with
  | nil => simp [findParaWalk]
  | cons a rest => simp [findParaWalk]

/-- C5 witness: a DIV with 600 characters and a single DIV child is
returned; `divBig` (two DIV children) is not, and the walk continues. -/
theorem findBestParagraph_container_between_caps_witness :
    findBestParagraph ⟨8, "DIV", [], longText600, ["DIV"]⟩ []
        = some (⟨8, "DIV", [], longText600, ["DIV"]⟩, []) ∧
    findBestParagraph divBig [] = findParaWalk [] := by
  constructor
  · have h := findBestParagraph_container_between_caps
      ⟨8, "DIV", [], longText600, ["DIV"]⟩ [] (by decide) (by decide)
      (by decide) (by decide)
    simpa using h
  · have h := findBestParagraph_container_between_caps divBig [] (by decide)
      (by decide) (by decide) (by decide)
    simpa using h

/-- C8 counterexample: when reading the selection range throws, the
resolver does not return null unconditionally — it falls back to the
hovered-paragraph branch and here returns the hovered paragraph target. -/
theorem selection_range_error_cex :
    getTranslateTarget (some ⟨"Bonjour", Except.error ()⟩)
        (some (pElem, [divRoot]))
      = some ⟨TargetType.element, "Hello world", pElem, [divRoot]⟩ := by
  decide

/-- C8 (amended): a throw while reading the selection range is caught and
never propagates; the selection is treated as no candidate and resolution
falls through to the hovered-element branch, so the resolver returns null
exactly when that branch also yields no candidate. -/
theorem getTranslateTarget_range_error (s : Sel)
    (hover : Option (Elem × List Elem))
    (h1 : s.selTextTrimmed.length > 0)
    (h2 : s.range = Except.error ()) :
    getTranslateTarget (some s) hover = hoverBranch hover := by
  simp [getTranslateTarget, h2, h1]

/-- C8 witness: with no hovered element the resolver returns null after a
range error; with a hovered paragraph it returns that target. -/
theorem getTranslateTarget_range_error_witness :
    getTranslateTarget (some ⟨"Bonjour", Except.error ()⟩) none = none ∧
    getTranslateTarget (some ⟨"Bonjour", Except.error ()⟩)
        (some (spanSel, [pSel, divRoot]))
      = hoverBranch (some (spanSel, [pSel, divRoot])) := by
  constructor
  · have h := getTranslateTarget_range_error ⟨"Bonjour", Except.error ()⟩ none
      (by decide) rfl
    simpa using h
  · exact getTranslateTarget_range_error ⟨"Bonjour", Except.error ()⟩
      (some (spanSel, [pSel, divRoot])) (by decide) rfl

theorem accumulateChunks_eq_map (l : List String) (acc : String) :
    accumulateChunks acc l =
      (cumulativeOf (l.filter (fun c => !(c = "")))).map (acc ++ ·) := by
  induction l generalizing acc with
  | nil => rfl
  | cons c cs ih =>
    by_cases h : c = ""
    · subst h
      simp [accumulateChunks, ih]
    · simp only [accumulateChunks, List.filter_cons, h, cumulativeOf, ih]
      simp [h, List.map_map, Function.comp, string_append_assoc]

/-- C9 counterexample: on the stream fragments "Hello" then " world", the
OpenAI-compatible client calls `onStream` with the fragments themselves —
not with the cumulative text so far ("Hello", "Hello world"). -/
theorem stream_fragment_not_cumulative_cex :
    (openAIStreamLoop [SSEItem.event "" "Hello", SSEItem.event "" " world"]).1
        = ["Hello", " world"] ∧
    cumulativeOf ["Hello", " world"] = ["Hello", "Hello world"] ∧
    (openAIStreamLoop [SSEItem.event "" "Hello", SSEItem.event "" " world"]).1
        ≠ cumulativeOf ["Hello", " world"] := by
  decide

/-- C9 (amended): in streaming mode the provider clients of ai.ts
(`callOpenAICompatible`, `callAnthropic`) invoke `onStream` once per newly
received nonempty fragment with that fragment itself; it is the translation
helper `translateWithStream` in content.ts whose `onChunk` receives the
cumulative text after each fragment; non-streaming mode returns the full
text in one response with no callback invocation. -/
theorem streaming_callback_granularity :
    (∀ items, (openAIStreamLoop items).1 = openAIFragments items) ∧
    (∀ items, (anthropicStreamLoop items).1 = anthropicFragments items) ∧
    (∀ chunks, twsChunkCalls chunks
        = cumulativeOf (chunks.filter (fun c => !(c = "")))) ∧
    (∀ s, openAINonStreaming s = ([], jsOr s "")) := by
  refine ⟨?_, ?_, ?_, ?_⟩
  · intro items
    induction items with
    | nil => rfl
    | cons i rest ih =>
      cases i with
      | done => simpa [openAIStreamLoop, openAIFragments] using ih
      | unparseable => simpa [openAIStreamLoop, openAIFragments] using ih
      | event r c =>
        by_cases h : c = ""
        · subst h
          simpa [openAIStreamLoop, openAIFragments] using ih
        · simp [openAIStreamLoop, openAIFragments, h, ih]
  · intro items
    induction items with
    | nil => rfl
    | cons i rest ih =>
      cases i with
      | unparseable => simpa [anthropicStreamLoop, anthropicFragments] using ih
      | otherEvent => simpa [anthropicStreamLoop, anthropicFragments] using ih
      | contentBlockDelta t =>
        by_cases h : t = ""
        · subst h
          simpa [anthropicStreamLoop, anthropicFragments] using ih
        · simp [anthropicStreamLoop, anthropicFragments, h, ih]
  · intro chunks
    have h := accumulateChunks_eq_map chunks ""
    simpa [twsChunkCalls, string_empty_append] using h
  · intro s
    rfl

/-- C7: starting from the idle machine, a key-down of the configured lone
modifier followed by its key-up strictly before the 150ms delay never sets
translate mode active at any intermediate state, cancels the pending timer
and returns the machine to Inactive; if the modifier is still held when the
timer becomes due (≥150ms after the key-down), translate mode activates. -/
theorem shortcut_activation_timing (shortcut : String) (kd ku : KeyEvent)
    (h1 : isOnlyShortcutKey shortcut kd = true)
    (h2 : wasShortcutKey shortcut ku = true) :
    ((stepTimed shortcut ⟨false, none⟩ (KEvent.down kd)).active = false) ∧
    (ku.time < kd.time + SHORTCUT_DELAY →
      (fireDue (stepTimed shortcut ⟨false, none⟩ (KEvent.down kd))
          ku.time).active = false ∧
      runEvents shortcut ⟨false, none⟩ [KEvent.down kd, KEvent.up ku]
        = ⟨false, none⟩) ∧
    (∀ t, kd.time + SHORTCUT_DELAY ≤ t →
      (fireDue (stepTimed shortcut ⟨false, none⟩ (KEvent.down kd)) t).active
        = true) := by
  have hdown : stepTimed shortcut ⟨false, none⟩ (KEvent.down kd)
      = ⟨false, some (kd.time + SHORTCUT_DELAY)⟩ := by
    simp [stepTimed, fireDue, keydownStep, h1]
  refine ⟨?_, ?_, ?_⟩
  · rw [hdown]
  · intro hlt
    have hnf : fireDue ⟨false, some (kd.time + SHORTCUT_DELAY)⟩ ku.time
        = ⟨false, some (kd.time + SHORTCUT_DELAY)⟩ := by
      simp [fireDue]
      omega
    constructor
    · rw [hdown, hnf]
    · simp [runEvents, hdown, stepTimed, hnf, keyupStep, h2,
        deactivateTranslateMode]
  · intro t hge
    rw [hdown]
    simp [fireDue, hge, activateTranslateMode]

/-- C7 witness: with the default Control shortcut, pressing at t=1000 and
releasing at t=1100 never activates and ends Inactive with no timer;
still holding at t=1150 activates. -/
theorem shortcut_activation_timing_witness :
    runEvents "Control" ⟨false, none⟩
        [KEvent.down ⟨"Control", true, false, false, false, 1000⟩,
         KEvent.up ⟨"Control", false, false, false, false, 1100⟩]
      = ⟨false, none⟩ ∧
    (fireDue (stepTimed "Control" ⟨false, none⟩
        (KEvent.down ⟨"Control", true, false, false, false, 1000⟩))
        1150).active = true := by
  constructor
  · exact ((shortcut_activation_timing "Control"
      ⟨"Control", true, false, false, false, 1000⟩
      ⟨"Control", false, false, false, false, 1100⟩ (by decide)
      (by decide)).2.1 (by decide)).2
  · exact (shortcut_activation_timing "Control"
      ⟨"Control", true, false, false, false, 1000⟩
      ⟨"Control", false, false, false, false, 1100⟩ (by decide)
      (by decide)).2.2 1150 (by decide)

/-- C2: for a cached text, `checkAndTranslate` (mode active, configuration
loaded, target not in flight) performs zero network calls and shows an
overlay at the target's block insertion point whose content is exactly the
cached translated value. -/
theorem checkAndTranslate_cache_hit (loadCfg : Option ProviderConfig)
    (st : TransState) (target : Target) (net : HttpResult) (v : String)
    (h1 : st.translateModeActive = true)
    (h2 : st.configLoaded = true)
    (h3 : ¬ st.translatingElement = some target.element.eid)
    (h4 : st.translatedTexts.lookup target.text = some v) :
    (checkAndTranslate loadCfg st (some target) net).2.networkCalls = 0 ∧
    (checkAndTranslate loadCfg st (some target) net).1.overlays.lookup
        (findBlockParent target.element target.ancestors).eid
      = some ⟨st.nextOid, false, v⟩ ∧
    (checkAndTranslate loadCfg st (some target) net).2.overlayInserts
      = [(findBlockParent target.element target.ancestors).eid] := by
  simp [checkAndTranslate, catSyncPhase, h1, h2, h3, h4, showTranslation,
    updateTranslationContent, List.lookup]

/-- C2 witness: with "Hello world" cached as 你好，世界, the run makes no
network call and the paragraph's overlay shows the cached value. -/
theorem checkAndTranslate_cache_hit_witness :
    (checkAndTranslate none stCached (some tgtP)
        (HttpResult.success [])).2.networkCalls = 0 ∧
    (checkAndTranslate none stCached (some tgtP)
        (HttpResult.success [])).1.overlays.lookup
        (findBlockParent tgtP.element tgtP.ancestors).eid
      = some ⟨stCached.nextOid, false, "你好，世界"⟩ ∧
    (checkAndTranslate none stCached (some tgtP)
        (HttpResult.success [])).2.overlayInserts
      = [(findBlockParent tgtP.element tgtP.ancestors).eid] :=
  checkAndTranslate_cache_hit none stCached tgtP (HttpResult.success [])
    "你好，世界" (by decide) (by decide) (by decide) (by decide)

/-- C3 counterexample: with no API key configured, a translation attempt on
a resolvable uncached target makes no network call — but an overlay IS
shown (inserted after the paragraph) and ends up carrying the error text,
contradicting the claim that no overlay is shown. -/
theorem no_api_key_overlay_cex :
    (checkAndTranslate none stNoKey (some tgtP)
        (HttpResult.success [])).2.networkCalls = 0 ∧
    (checkAndTranslate none stNoKey (some tgtP)
        (HttpResult.success [])).2.overlayInserts = [1] ∧
    (checkAndTranslate none stNoKey (some tgtP)
        (HttpResult.success [])).1.overlays.lookup 1
      = some ⟨0, false, "翻译失败: 未配置 API 密钥"⟩ := by
  decide

theorem lookup_filter_ne_none (l : List (Nat × Overlay)) (k pos : Nat)
    (h : l.lookup k = none) :
    (l.filter (fun p => p.1 ≠ pos)).lookup k = none :=
  (List.filter_sublist l).lookup_eq_none h

/-- C3 (amended): when no API key is configured, a translation attempt on a
resolvable uncached not-in-flight target aborts before any network call
(zero network calls) and the in-flight marker is cleared, but a loading
overlay IS shown first, inserted after the block insertion point of the
target.  The thrown configuration error is then caught; when the target
element is its own block insertion point (always the case for element-type
targets produced by the locator) the error text is written into that
overlay, while for a target anchored at an inline element (a selection
inside a SPAN, say) the overlay sits after the block parent, the catch
inspects the sibling of the target element instead, and the overlay keeps
showing the loading text. -/
theorem checkAndTranslate_no_api_key (loadCfg : Option ProviderConfig)
    (st : TransState) (target : Target) (net : HttpResult)
    (h1 : st.translateModeActive = true)
    (h2 : st.configLoaded = true)
    (h3 : hasApiKey st.providerConfig = false)
    (h4 : st.translatingElement = none)
    (h5 : st.translatedTexts.lookup target.text = none)
    (h6 : st.overlays.lookup target.element.eid = none) :
    (checkAndTranslate loadCfg st (some target) net).2.networkCalls = 0 ∧
    (checkAndTranslate loadCfg st (some target) net).2.overlayInserts
      = [(findBlockParent target.element target.ancestors).eid] ∧
    (checkAndTranslate loadCfg st (some target) net).1.translatingElement
      = none ∧
    ((findBlockParent target.element target.ancestors).eid
        = target.element.eid →
      (checkAndTranslate loadCfg st (some target) net).1.overlays.lookup
          (findBlockParent target.element target.ancestors).eid
        = some ⟨st.nextOid, false, "翻译失败: 未配置 API 密钥"⟩) ∧
    (¬ (findBlockParent target.element target.ancestors).eid
        = target.element.eid →
      (checkAndTranslate loadCfg st (some target) net).1.overlays.lookup
          (findBlockParent target.element target.ancestors).eid
        = some ⟨st.nextOid, true, "翻译中..."⟩) := by
  have h4x : ¬ st.translatingElement = some target.element.eid := by
    rw [h4]
    simp
  by_cases hpe : (findBlockParent target.element target.ancestors).eid
      = target.element.eid
  · simp [checkAndTranslate, catSyncPhase, h1, h2, h3, h4x, h5, h6, hpe,
      showTranslation, updateTranslationContent, catchUpdate, List.lookup]
  · have hpe2 : ¬ target.element.eid
        = (findBlockParent target.element target.ancestors).eid := by
      intro h
      exact hpe h.symm
    have hbeq : (target.element.eid
        == (findBlockParent target.element target.ancestors).eid) = false := by
      simpa using hpe2
    have hf : ((st.overlays.filter (fun p =>
          p.1 ≠ (findBlockParent target.element target.ancestors).eid)).lookup
          target.element.eid) = none :=
      lookup_filter_ne_none st.overlays target.element.eid
        (findBlockParent target.element target.ancestors).eid h6
    have hf2 := hf
    simp only [ne_eq, decide_not] at hf2
    simp [checkAndTranslate, catSyncPhase, h1, h2, h3, h4x, h5, h6, hpe,
      hpe2, hbeq, hf, hf2, showTranslation, updateTranslationContent,
      catchUpdate, List.lookup]

/-- C3 witness: the concrete no-key run on the paragraph target aborts
with zero network calls and the error text in its overlay; the same run on
the inline-anchored selection target also makes zero network calls but
leaves the loading text in the overlay after the block parent. -/
theorem checkAndTranslate_no_api_key_witness :
    (checkAndTranslate none stNoKey (some tgtP)
        (HttpResult.success ["x"])).2.networkCalls = 0 ∧
    (checkAndTranslate none stNoKey (some tgtP)
        (HttpResult.success ["x"])).1.overlays.lookup
        (findBlockParent tgtP.element tgtP.ancestors).eid
      = some ⟨stNoKey.nextOid, false, "翻译失败: 未配置 API 密钥"⟩ ∧
    (checkAndTranslate none stNoKey (some tgtSel)
        (HttpResult.success ["x"])).1.overlays.lookup
        (findBlockParent tgtSel.element tgtSel.ancestors).eid
      = some ⟨stNoKey.nextOid, true, "翻译中..."⟩ := by
  refine ⟨?_, ?_, ?_⟩
  · exact (checkAndTranslate_no_api_key none stNoKey tgtP
      (HttpResult.success ["x"]) (by decide) (by decide) (by decide)
      (by decide) (by decide) (by decide)).1
  · exact (checkAndTranslate_no_api_key none stNoKey tgtP
      (HttpResult.success ["x"]) (by decide) (by decide) (by decide)
      (by decide) (by decide) (by decide)).2.2.2.1 (by decide)
  · exact (checkAndTranslate_no_api_key none stNoKey tgtSel
      (HttpResult.success ["x"]) (by decide) (by decide) (by decide)
      (by decide) (by decide) (by decide)).2.2.2.2 (by decide)

theorem catSyncPhase_starts (loadCfg : Option ProviderConfig)
    (st : TransState) (target : Target)
    (h1 : st.translateModeActive = true)
    (h2 : st.configLoaded = true)
    (hk : hasApiKey st.providerConfig = true)
    (h4 : st.translatingElement = none)
    (h5 : st.translatedTexts.lookup target.text = none)
    (h6 : st.overlays.lookup target.element.eid = none) :
    catSyncPhase loadCfg st (some target)
      = ({ st with
            translatingElement := some target.element.eid,
            overlays :=
              ((findBlockParent target.element target.ancestors).eid,
                ⟨st.nextOid, true, "翻译中..."⟩) ::
              st.overlays.filter (fun p =>
                p.1 ≠ (findBlockParent target.element target.ancestors).eid),
            nextOid := st.nextOid + 1 },
         ⟨1, [(findBlockParent target.element target.ancestors).eid], []⟩,
         SyncResult.started
           (jsOr ((st.providerConfig.map (fun c => c.model)).getD "")
             "gpt-4o-mini")
           target.element.eid st.nextOid target.text) := by
  have h4x : ¬ st.translatingElement = some target.element.eid := by
    rw [h4]
    simp
  simp [catSyncPhase, h1, h2, hk, h4x, h5, h6, showTranslation, Trace.app]

/-- C1: the exclusivity lock.  First, any `checkAndTranslate` invocation
whose resolved target's element is the one recorded in flight finishes its
synchronous phase immediately with an empty effect trace — no network
request, no overlay insertion, no cache write.  Consequently, two rapid
invocations for the same anchor, the second starting while the first is
suspended on the network, perform exactly one network call in total, so at
most one translation request is in flight per anchor. -/
theorem checkAndTranslate_exclusivity :
    (∀ (loadCfg : Option ProviderConfig) (st : TransState) (target : Target),
      st.translatingElement = some target.element.eid →
      (catSyncPhase loadCfg st (some target)).2
        = (Trace.empty, SyncResult.finished)) ∧
    (∀ (loadCfg : Option ProviderConfig) (st : TransState) (target : Target)
        (net : HttpResult),
      st.translateModeActive = true →
      st.configLoaded = true →
      hasApiKey st.providerConfig = true →
      st.translatingElement = none →
      st.translatedTexts.lookup target.text = none →
      st.overlays.lookup target.element.eid = none →
      (rapidDouble loadCfg st target net).2.networkCalls = 1) := by
  constructor
  · intro loadCfg st target h
    by_cases hm : st.translateModeActive = true
    · by_cases hcl : st.configLoaded = true
      · simp [catSyncPhase, hm, hcl, h]
      · simp [catSyncPhase, hm, hcl, h]
    · simp [catSyncPhase, hm]
  · intro loadCfg st target net h1 h2 hk h4 h5 h6
    have hstart := catSyncPhase_starts loadCfg st target h1 h2 hk h4 h5 h6
    unfold rapidDouble
    rw [hstart]
    simp only []
    have hsecond :
        catSyncPhase loadCfg
          { st with
            translatingElement := some target.element.eid,
            overlays :=
              ((findBlockParent target.element target.ancestors).eid,
                ⟨st.nextOid, true, "翻译中..."⟩) ::
              st.overlays.filter (fun p =>
                p.1 ≠ (findBlockParent target.element target.ancestors).eid),
            nextOid := st.nextOid + 1 }
          (some target)
        = ({ st with
              translatingElement := some target.element.eid,
              overlays :=
                ((findBlockParent target.element target.ancestors).eid,
                  ⟨st.nextOid, true, "翻译中..."⟩) ::
                st.overlays.filter (fun p =>
                  p.1 ≠ (findBlockParent target.element target.ancestors).eid),
              nextOid := st.nextOid + 1 },
           Trace.empty, SyncResult.finished) := by
      simp [catSyncPhase, h1, h2]
    rw [hsecond]
    cases net with
    | failure status statusText body =>
      simp [catResume, Trace.app, Trace.empty]
    | success chunks =>
      simp [catResume, Trace.app, Trace.empty]

/-- C1 witness: in the ready state, the first invocation for the paragraph
target suspends with its request issued and one network call; the
rapid-double interleaving performs exactly one network call in total, and
an invocation arriving while the element is in flight has an empty trace. -/
theorem checkAndTranslate_exclusivity_witness :
    (catSyncPhase none stInFlight (some tgtP)).2
      = (Trace.empty, SyncResult.finished) ∧
    (rapidDouble none stReady tgtP
        (HttpResult.success ["你好"])).2.networkCalls = 1 :=
  ⟨checkAndTranslate_exclusivity.1 none stInFlight tgtP (by decide),
   checkAndTranslate_exclusivity.2 none stReady tgtP
     (HttpResult.success ["你好"]) (by decide) (by decide) (by decide)
     (by decide) (by decide) (by decide)⟩

/-- C6 counterexample: for a selection target anchored at an inline SPAN,
the loading overlay is inserted after the SPAN's block parent (the P),
while the failure handler looks for the overlay directly after the SPAN —
so after a 500 response the overlay still shows the loading text, not the
error message. -/
theorem failure_inline_selection_cex :
    (checkAndTranslate none stReady (some tgtSel)
        (HttpResult.failure 500 "Internal Server Error"
          (ErrorBody.unparseable "oops"))).1.overlays.lookup 2
      = some ⟨0, true, "翻译中..."⟩ ∧
    (checkAndTranslate none stReady (some tgtSel)
        (HttpResult.failure 500 "Internal Server Error"
          (ErrorBody.unparseable "oops"))).1.overlays.lookup 3
      = none := by
  decide

/-- C6 (amended): when the streaming request fails, the loading overlay is
never removed; for a target that is its own block insertion point (always
the case for element-type targets produced by the locator), its text
content is replaced with 翻译失败: followed by the thrown message, which
carries the parsed provider error message when the error body is parseable
JSON (falling back to the top-level message, then the raw body) and the
HTTP status text otherwise; the in-flight marker is always cleared.  For
selection targets anchored at an inline element, the overlay sits after
the block parent instead and keeps showing the loading text. -/
theorem checkAndTranslate_failure_error_in_overlay
    (loadCfg : Option ProviderConfig) (st : TransState) (target : Target)
    (status : Nat) (statusText : String) (body : ErrorBody)
    (cfg : ProviderConfig)
    (h1 : st.translateModeActive = true)
    (h2 : st.configLoaded = true)
    (hc : st.providerConfig = some cfg)
    (hk : ¬ cfg.apiKey = "")
    (h4 : st.translatingElement = none)
    (h5 : st.translatedTexts.lookup target.text = none)
    (h6 : st.overlays.lookup target.element.eid = none)
    (h7 : fbpInline.contains target.element.tagName = false) :
    (checkAndTranslate loadCfg st (some target)
        (HttpResult.failure status statusText body)).1.overlays.lookup
        target.element.eid
      = some ⟨st.nextOid, false,
          "翻译失败: " ++ twsErrMsg (jsOr cfg.model "gpt-4o-mini") status
            (errorDetail body statusText)⟩ ∧
    (checkAndTranslate loadCfg st (some target)
        (HttpResult.failure status statusText body)).1.translatingElement
      = none ∧
    (checkAndTranslate loadCfg st (some target)
        (HttpResult.failure status statusText body)).2.networkCalls = 1 ∧
    (∀ raw, errorDetail (ErrorBody.unparseable raw) statusText
      = statusText) ∧
    (∀ m t raw, ¬ m = "" →
      errorDetail (ErrorBody.parsed m t raw) statusText = m) := by
  have hkk : hasApiKey st.providerConfig = true := by
    rw [hc]
    simpa [hasApiKey] using hk
  have h7m : ¬ target.element.tagName ∈ fbpInline := by
    simpa using h7
  have hpos : findBlockParent target.element target.ancestors
      = target.element := by
    simp [findBlockParent, fbpWalk, h7m]
  have hstart := catSyncPhase_starts loadCfg st target h1 h2 hkk h4 h5 h6
  rw [hpos] at hstart
  refine ⟨?_, ?_, ?_, ?_, ?_⟩
  · unfold checkAndTranslate
    rw [hstart]
    simp [catResume, catchUpdate, updateTranslationContent, hc,
      List.lookup, jsOr]
  · unfold checkAndTranslate
    rw [hstart]
    simp [catResume, catchUpdate, updateTranslationContent, List.lookup]
  · unfold checkAndTranslate
    rw [hstart]
    simp [catResume, Trace.app, Trace.empty]
  · intro raw
    rfl
  · intro m t raw hm
    simp [errorDetail, jsOr, hm]

/-- C6 witness: a 500 response with a parseable error body leaves the
overlay in place after the paragraph with the provider's message inside
the error text, the marker cleared, and one network call. -/
theorem checkAndTranslate_failure_error_in_overlay_witness :
    (checkAndTranslate none stReady (some tgtP)
        (HttpResult.failure 500 "Internal Server Error"
          (ErrorBody.parsed "Invalid API key" "" "rawbody"))).1.overlays.lookup
        tgtP.element.eid
      = some ⟨stReady.nextOid, false,
          "翻译失败: " ++ twsErrMsg (jsOr cfgOK.model "gpt-4o-mini") 500
            (errorDetail (ErrorBody.parsed "Invalid API key" "" "rawbody")
              "Internal Server Error")⟩ ∧
    (checkAndTranslate none stReady (some tgtP)
        (HttpResult.failure 500 "Internal Server Error"
          (ErrorBody.parsed "Invalid API key" "" "rawbody"))).1.translatingElement
      = none ∧
    (checkAndTranslate none stReady (some tgtP)
        (HttpResult.failure 500 "Internal Server Error"
          (ErrorBody.parsed "Invalid API key" "" "rawbody"))).2.networkCalls
      = 1 ∧
    (∀ raw, errorDetail (ErrorBody.unparseable raw) "Internal Server Error"
      = "Internal Server Error") ∧
    (∀ m t raw, ¬ m = "" →
      errorDetail (ErrorBody.parsed m t raw) "Internal Server Error" = m) :=
  checkAndTranslate_failure_error_in_overlay none stReady tgtP 500
    "Internal Server Error" (ErrorBody.parsed "Invalid API key" "" "rawbody")
    cfgOK (by decide) (by decide) (by decide) (by decide) (by decide)
    (by decide) (by decide) (by decide)

end Samo
